import Mathlib

/-!
Verification of the `DataIngestion` pipeline (`DataIngestion/DataIngestion.py`).

The script downloads a spreadsheet from a URL, checks that it is a real file
(not inline text/HTML), cross-checks the URL extension against the extensions
implied by the content type, persists the bytes locally, parses one worksheet
into a list of records, serializes them to JSON, and uploads the JSON to an
S3 bucket.  Each stage returns a boolean and the driver `main` stops at the
first failure.

We embed the program shallowly:
* the filesystem is a map `String → Option Bytes`;
* an HTTP response is a record of status code, optional content-type header
  value, and body bytes; a failed `requests.get` is `none`;
* the `mimetypes`, `pandas` and JSON libraries are oracle parameters
  (`guessAll`, `excel`, `ser`);
* the S3 backend is a record of the existing bucket names plus oracles for
  the results of `create_bucket` and `put_object` (`Except Unit` models a
  raised exception, `Option Unit` models Python truthiness of the returned
  acknowledgement object).
-/

namespace DataIngestion

/-! ### Python string primitives -/

/-- Python `needle` being a prefix of `hay` (used to build the `in` operator). -/
def startsWithL : List Char → List Char → Bool
  | [], _ => true
  | _ :: _, [] => false
  | a :: as, b :: bs => a = b && startsWithL as bs

/-- Python substring test `needle in hay` on character lists. -/
def isSub (needle : List Char) : List Char → Bool
  | [] => needle.isEmpty
  | c :: t => startsWithL needle (c :: t) || isSub needle t

/-- Python `needle in hay` on strings. -/
def strIn (needle hay : String) : Bool := isSub needle.data hay.data

/-- The whitespace characters removed by Python `str.strip()` (ASCII part). -/
def isPySpace (c : Char) : Bool :=
  c = ' ' || c = Char.ofNat 9 || c = Char.ofNat 10 || c = Char.ofNat 13 ||
  c = Char.ofNat 11 || c = Char.ofNat 12

/-- Remove the characters satisfying `p` from both ends of a list
(Python `str.strip` with a given character class). -/
def stripEnds (p : Char → Bool) (l : List Char) : List Char :=
  ((l.dropWhile p).reverse.dropWhile p).reverse

/-- Python `str.strip()` (default whitespace set). -/
def pyStrip (l : List Char) : List Char := stripEnds isPySpace l

/-- Python `str.strip()` on a `String`. -/
def pyStripS (s : String) : String := String.mk (pyStrip s.data)

/-- Python `str.lower()`. -/
def pyLower (s : String) : String := String.mk (s.data.map Char.toLower)

/-- Python `str.split(sep)`: splits at every occurrence of `sep`, keeping
empty fields; the result is never the empty list. -/
def pySplit (sep : Char) : List Char → List (List Char)
  | [] => [[]]
  | c :: rest =>
    match pySplit sep rest with
    | [] => [[]]
    | h :: t => if c = sep then [] :: h :: t else (c :: h) :: t

/-! ### Constants of the script -/

def SUCCESS : Nat := 0
def GENERIC_ERR : Nat := 1
def INVALID_ARG_ERR : Nat := 4
def S3_BUCKET_CR_ERR : Nat := 5

def CONTENT_TYPE_TEXT : String := "text"
def CONTENT_TYPE_HTML : String := "html"

def OUTPUT_FILE_PATH : String := "output/dataingestion"
def OUTPUT_FILE_JSON : String := "output/dataingestion.json"
def JSON_FILE_PATH_ON_AWS : String := "DataIngestion/dataingestion.json"

/-! ### Data model -/

/-- Raw file contents. -/
abbrev Bytes := List Nat

/-- A `requests` response: status code, the value of the `Content-Type`
header (`none` when the header is absent, mirroring
`headers.get('Content-Type', None)`), and the body bytes. -/
structure Response where
  status_code : Nat
  contentType : Option String
  content : Bytes

/-- The local filesystem as a partial map from paths to file contents. -/
abbrev FS := String → Option Bytes

/-- Write (create or overwrite) a file. -/
def FS.write (fs : FS) (p : String) (b : Bytes) : FS :=
  fun q => if q = p then some b else fs q

/-- `os.remove`. -/
def FS.remove (fs : FS) (p : String) : FS :=
  fun q => if q = p then none else fs q

/-! ### Stage `connect` (Fetcher) -/

/-- `DataIngestion.connect`: success iff `requests.get` returned a non-`None`
response; the stored response is the argument.  A raised exception is
modelled by `none`. -/
def connect (resp : Option Response) : Bool := resp.isSome

/-! ### Stage `is_downloadable` (Downloadability Guard) -/

/-- `DataIngestion.is_downloadable`: `ret_status` starts `True`; a missing
content-type sets it `False`; a content type whose lowercase form contains
`"text"` or `"html"` sets it `False`.  Any exception (for instance a `None`
stored response, modelled by the `none` case) is caught after `ret_status`
was initialized to `True` and never reset, so `True` is returned. -/
def is_downloadable (resp : Option Response) : Bool :=
  match resp with
  | none => true
  | some r =>
    match r.contentType with
    | none => false
    | some ct =>
      if strIn CONTENT_TYPE_TEXT (pyLower ct) then false
      else if strIn CONTENT_TYPE_HTML (pyLower ct) then false
      else true

/-! ### Stage `get_extensions` (Extension Resolver, content-type side) -/

/-- `DataIngestion.get_extensions` as called from `main` (with
`strict_flag=False`, `all_ext_flag=True`): the `mimetypes` registry is the
oracle `guessAll`; a missing header or a `None` response (exception caught)
yields the empty list. -/
def get_extensions (guessAll : String → List String) (resp : Option Response) :
    List String :=
  match resp with
  | none => []
  | some r =>
    match r.contentType with
    | none => []
    | some ct => guessAll ct

/-! ### URL-derived extension (Extension Resolver, URL side)

`main` computes
`file_ext = url.split('.')[-1] if len(url.split('.')) > 0 else ""` and then
`file_ext = "." + file_ext.strip()`. -/

/-- The candidate extension `main` derives from the URL. -/
def derive_ext (url : String) : String :=
  let parts := pySplit (Char.ofNat 46) url.data
  let fe := if 0 < parts.length then parts.getLastD [] else []
  String.mk (Char.ofNat 46 :: pyStrip fe)

/-- Specification-side description of "the part after the final dot": the
longest suffix of the list containing no dot; for a dot-free list this is
the whole list. -/
def lastField (sep : Char) : List Char → List Char
  | [] => []
  | c :: rest =>
    if sep ∈ rest then lastField sep rest
    else if c = sep then rest else c :: rest

/-! ### Helper lemmas about the string primitives -/

theorem startsWithL_iff (needle hay : List Char) :
    startsWithL needle hay = true ↔ ∃ post, hay = needle ++ post := by
  induction needle generalizing hay with
  | nil => simp [startsWithL]
  | cons a as ih =>
    cases hay with
    | nil => simp [startsWithL]
    | cons b bs =>
      simp only [startsWithL, Bool.and_eq_true, decide_eq_true_eq, ih,
        List.cons_append, List.cons.injEq]
      constructor
      · rintro ⟨rfl, post, rfl⟩; exact ⟨post, rfl, rfl⟩
      · rintro ⟨post, rfl, rfl⟩; exact ⟨rfl, post, rfl⟩

theorem isSub_iff (needle hay : List Char) :
    isSub needle hay = true ↔ ∃ pre post, hay = pre ++ needle ++ post := by
  induction hay with
  | nil =>
    simp only [isSub, List.isEmpty_iff]
    constructor
    · rintro rfl; exact ⟨[], [], rfl⟩
    · rintro ⟨pre, post, h⟩
      rcases List.append_eq_nil.mp ((List.append_eq_nil).mp h.symm).1 with ⟨-, h2⟩
      exact h2
  | cons c t ih =>
    simp only [isSub, Bool.or_eq_true, startsWithL_iff, ih]
    constructor
    · rintro (⟨post, h⟩ | ⟨pre, post, h⟩)
      · exact ⟨[], post, by simp [h]⟩
      · exact ⟨c :: pre, post, by simp [h]⟩
    · rintro ⟨pre, post, h⟩
      cases pre with
      | nil => exact Or.inl ⟨post, by simpa using h⟩
      | cons p ps =>
        right
        simp only [List.cons_append, List.cons.injEq] at h
        exact ⟨ps, post, h.2⟩

theorem pySplit_ne_nil (sep : Char) (l : List Char) : pySplit sep l ≠ [] := by
  cases l with
  | nil => simp [pySplit]
  | cons c rest =>
    simp only [pySplit]
    cases h : pySplit sep rest with
    | nil => simp
    | cons h t =>
      by_cases hc : c = sep <;> simp [hc]

theorem pySplit_of_not_mem {sep : Char} {l : List Char} (h : sep ∉ l) :
    pySplit sep l = [l] := by
  induction l with
  | nil => rfl
  | cons c rest ih =>
    have hc : c ≠ sep := fun hcs => h (hcs ▸ List.mem_cons_self c rest)
    have hrest : sep ∉ rest := fun hm => h (List.mem_cons_of_mem c hm)
    simp [pySplit, ih hrest, hc]

theorem pySplit_cons (sep c : Char) (rest hd : List Char) (tl : List (List Char))
    (h : pySplit sep rest = hd :: tl) :
    pySplit sep (c :: rest) = if c = sep then [] :: hd :: tl else (c :: hd) :: tl := by
  simp only [pySplit, h]

theorem mem_iff_two_le_pySplit (sep : Char) (l : List Char) :
    sep ∈ l ↔ 2 ≤ (pySplit sep l).length := by
  induction l with
  | nil => simp [pySplit]
  | cons c rest ih =>
    cases h : pySplit sep rest with
    | nil => exact absurd h (pySplit_ne_nil sep rest)
    | cons hd tl =>
      rw [h] at ih
      rw [pySplit_cons sep c rest hd tl h]
      by_cases hc : c = sep
      · rw [if_pos hc]
        simp only [List.length_cons, List.mem_cons]
        constructor
        · intro _; omega
        · intro _; exact Or.inl hc.symm
      · rw [if_neg hc]
        simp only [List.length_cons, List.mem_cons] at ih ⊢
        constructor
        · rintro (h1 | h2)
          · exact absurd h1.symm hc
          · exact ih.mp h2
        · intro hlen
          exact Or.inr (ih.mpr hlen)

theorem getLastD_of_ne_nil {α : Type} {l : List α} (h : l ≠ []) (a b : α) :
    l.getLastD a = l.getLastD b := by
  cases l with
  | nil => exact absurd rfl h
  | cons x xs => rw [List.getLastD_cons, List.getLastD_cons]

theorem getLastD_pySplit (sep : Char) (l : List Char) :
    (pySplit sep l).getLastD [] = lastField sep l := by
  induction l with
  | nil => rfl
  | cons c rest ih =>
    cases h : pySplit sep rest with
    | nil => exact absurd h (pySplit_ne_nil sep rest)
    | cons hd tl =>
      rw [h] at ih
      rw [pySplit_cons sep c rest hd tl h]
      simp only [lastField]
      by_cases hm : sep ∈ rest
      · have htl : tl ≠ [] := by
          have h2 := (mem_iff_two_le_pySplit sep rest).mp hm
          rw [h] at h2
          cases tl with
          | nil => simp at h2
          | cons _ _ => simp
        rw [if_pos hm]
        by_cases hc : c = sep
        · rw [if_pos hc, List.getLastD_cons, ← ih]
        · rw [if_neg hc, List.getLastD_cons, ← ih, List.getLastD_cons]
          exact getLastD_of_ne_nil htl _ _
      · have hsingle : pySplit sep rest = [rest] := pySplit_of_not_mem hm
        rw [h] at hsingle
        injection hsingle with h1 h2
        subst h1; subst h2
        rw [if_neg hm]
        by_cases hc : c = sep
        · rw [if_pos hc, List.getLastD_cons, List.getLastD_cons, if_pos hc]
          rfl
        · rw [if_neg hc, List.getLastD_cons, if_neg hc]
          rfl

theorem lastField_of_not_mem {sep : Char} {l : List Char} (h : sep ∉ l) :
    lastField sep l = l := by
  cases l with
  | nil => rfl
  | cons c rest =>
    have hc : c ≠ sep := fun hcs => h (hcs ▸ List.mem_cons_self c rest)
    have hrest : sep ∉ rest := fun hm => h (List.mem_cons_of_mem c hm)
    simp [lastField, hrest, hc]

/-! ### Claims about the Downloadability Guard and the URL extension -/

/-- C2: for a response with a content-type header, the guard returns
not-downloadable exactly when the lowercased header value contains the
substring `"text"` or `"html"`; a missing header is not downloadable; the
classification depends on the content-type header alone (two responses with
the same header value classify identically, whatever their status or body). -/
theorem C2_downloadability_guard (r : Response) :
    (∀ ct, r.contentType = some ct →
      (is_downloadable (some r) = false ↔
        (∃ pre post, (pyLower ct).data = pre ++ CONTENT_TYPE_TEXT.data ++ post) ∨
        (∃ pre post, (pyLower ct).data = pre ++ CONTENT_TYPE_HTML.data ++ post))) ∧
    (r.contentType = none → is_downloadable (some r) = false) ∧
    (∀ s : Response, s.contentType = r.contentType →
      is_downloadable (some s) = is_downloadable (some r)) := by
  refine ⟨?h1, ?h2, ?h3⟩
  · intro ct h
    have hd : is_downloadable (some r) =
        (if strIn CONTENT_TYPE_TEXT (pyLower ct) then false
         else if strIn CONTENT_TYPE_HTML (pyLower ct) then false else true) := by
      simp [is_downloadable, h]
    rw [hd]
    by_cases ht : strIn CONTENT_TYPE_TEXT (pyLower ct) = true
    · rw [if_pos ht]
      exact iff_of_true rfl (Or.inl ((isSub_iff _ _).mp ht))
    · rw [if_neg ht]
      by_cases hh : strIn CONTENT_TYPE_HTML (pyLower ct) = true
      · rw [if_pos hh]
        exact iff_of_true rfl (Or.inr ((isSub_iff _ _).mp hh))
      · rw [if_neg hh]
        refine iff_of_false (by simp) ?hr
        rintro (hx | hx)
        · exact ht ((isSub_iff _ _).mpr hx)
        · exact hh ((isSub_iff _ _).mpr hx)
  · intro h
    simp [is_downloadable, h]
  · intro s hs
    simp only [is_downloadable, hs]

/-- A concrete non-text, non-html response used as witness input. -/
def respPdf : Response := ⟨200, some "application/pdf", [1]⟩

theorem C2_downloadability_guard_witness :
    is_downloadable (some respPdf) = false ↔
      (∃ pre post,
        (pyLower "application/pdf").data = pre ++ CONTENT_TYPE_TEXT.data ++ post) ∨
      (∃ pre post,
        (pyLower "application/pdf").data = pre ++ CONTENT_TYPE_HTML.data ++ post) :=
  (C2_downloadability_guard respPdf).1 "application/pdf" rfl

/-- C9: if reading the content type raises (for instance the stored response
is `None`), the guard returns `True`: `ret_status` is initialized to `True`
and the exception handler never resets it, so the guard fails open. -/
theorem C9_guard_fails_open : is_downloadable none = true := rfl

/-- C3 counterexample: the URL `"abc"` contains no dot, yet the derived
extension is `".abc"` (a dot followed by the whole URL), not the
one-character string `"."` the claim asserts. -/
theorem C3_counterexample : derive_ext "abc" = ".abc" ∧ derive_ext "abc" ≠ "." := by
  refine ⟨rfl, ?hne⟩
  decide

/-- C3 amended: for every URL the derived extension is a dot followed by
the whitespace-stripped longest dot-free suffix of the URL (that is, the
part after the final dot); in particular a URL containing no dot yields a
dot followed by the whole whitespace-stripped URL, not the bare dot. -/
theorem C3_amended_extension (url : String) :
    derive_ext url =
      String.mk (Char.ofNat 46 :: pyStrip (lastField (Char.ofNat 46) url.data)) ∧
    (Char.ofNat 46 ∉ url.data →
      derive_ext url = String.mk (Char.ofNat 46 :: pyStrip url.data)) := by
  have hne := pySplit_ne_nil (Char.ofNat 46) url.data
  have hlen : 0 < (pySplit (Char.ofNat 46) url.data).length := List.length_pos.mpr hne
  constructor
  · simp only [derive_ext, if_pos hlen, getLastD_pySplit]
  · intro hnd
    simp only [derive_ext, if_pos hlen, getLastD_pySplit, lastField_of_not_mem hnd]

theorem C3_amended_extension_witness :
    derive_ext "abc" = String.mk (Char.ofNat 46 :: pyStrip "abc".data) :=
  (C3_amended_extension "abc").2 (by decide)

/-! ### Worksheet data model (pandas side)

A worksheet cell either holds a scalar value or is missing (`NaN`); a
data frame is a header row plus data rows.  `pandas.DataFrame.empty` is
true when either axis has length zero. -/

/-- A scalar cell value as it survives JSON serialization. -/
inductive CellVal where
  | str (s : String)
  | num (z : Int)
  | flag (b : Bool)
deriving DecidableEq

/-- A raw worksheet cell: a value or the missing-value marker `NaN`. -/
inductive PdCell where
  | val (v : CellVal)
  | nan
deriving DecidableEq

/-- The `where(pd.notnull(df), None)` normalization: `NaN` becomes `None`. -/
def PdCell.toOpt : PdCell → Option CellVal
  | .val v => some v
  | .nan => none

/-- A worksheet loaded as a data frame: column headers plus data rows. -/
structure DataFrame where
  header : List String
  rows : List (List PdCell)
deriving DecidableEq

/-- `pandas.DataFrame.empty`. -/
def DataFrame.empty (df : DataFrame) : Bool :=
  df.rows.isEmpty || df.header.isEmpty

/-- One record of `to_dict('records')`: column name to (null-normalized)
cell value. -/
abbrev Record := List (String × Option CellVal)

/-- The `where(...).to_dict('records')` composite in `parse_file`: one
record per data row, in row order, keyed by the column headers. -/
def to_records (df : DataFrame) : List Record :=
  df.rows.map (fun row => df.header.zip (row.map PdCell.toOpt))

/-- A workbook: worksheets by name, as `pandas.ExcelFile` exposes them. -/
abbrev Workbook := List (String × DataFrame)

/-! ### Stage `download` (Persister) -/

/-- `DataIngestion.download`: only a status-200 response is written; any
pre-existing file at the target path is removed first, then the body bytes
are written and the stage succeeds exactly when the written file exists
with non-zero size.  For any other status nothing happens and the stage
fails. -/
def download (r : Response) (path : String) (fs : FS) : Bool × FS :=
  if r.status_code = 200 then
    let fs1 := if (fs path).isSome then FS.remove fs path else fs
    let fs2 := FS.write fs1 path r.content
    match fs2 path with
    | some b => (decide (0 < b.length), fs2)
    | none => (false, fs2)
  else (false, fs)

/-! ### Stage `parse_file` (Parser/Serializer)

`pd.ExcelFile` is the oracle `excel` (raising, for unreadable bytes, is
`none`); `json.dump` is the oracle `ser`.  The sheet-membership test uses
the stripped sheet name, while `pd.read_excel` is called with the
unstripped name (a raised `ValueError` for an unknown name is the `none`
branch of the lookup). -/

/-- Look a worksheet up by exact name, as `pd.read_excel` does. -/
def findSheet (wb : Workbook) (name : String) : Option DataFrame :=
  (wb.find? (fun p => p.1 == name)).map Prod.snd

/-- `DataIngestion.parse_file`. -/
def parse_file (excel : Bytes → Option Workbook) (ser : List Record → Bytes)
    (sheet_name rawPath jsonPath : String) (fs : FS) : Bool × FS :=
  match fs rawPath with
  | none => (false, fs)
  | some b =>
    match excel b with
    | none => (false, fs)
    | some wb =>
      if (pyStripS sheet_name) ∈ wb.map Prod.fst then
        match findSheet wb sheet_name with
        | none => (false, fs)
        | some df =>
          if df.empty then (false, fs)
          else
            let recs := to_records df
            if recs.isEmpty then (false, fs)
            else
              let fs2 := FS.write fs jsonPath (ser recs)
              match fs2 jsonPath with
              | some jb => (decide (0 < jb.length), fs2)
              | none => (false, fs2)
      else (false, fs)

/-! ### Stage `upload_to_aws_s3` (Uploader)

The backend is modelled by the current bucket names plus oracles for the
results of `create_bucket` and `put_object`: `.error ()` is a raised
exception (caught by the stage, which then returns failure), `.ok none` is
a falsy acknowledgement, `.ok (some ())` a truthy one.  `sys.exit`
(raising `SystemExit`, which `except Exception` does not catch) is the
`exitCr` outcome. -/

/-- Outcome of the upload stage. -/
inductive UpResult where
  | ok
  | fail
  | exitCr
deriving DecidableEq

/-- An observable request issued to the storage backend. -/
inductive S3Action where
  | createB (name loc : String)
  | putB (bucket key acl : String)
deriving DecidableEq

/-- The S3 backend model. -/
structure S3 where
  buckets : List String
  createResult : String → Except Unit (Option Unit)
  putResult : String → Except Unit (Option Unit)

/-- The `put_object` part of `upload_to_aws_s3`: open the JSON file
(raising if absent), issue the put, succeed only on a truthy response. -/
def s3_put (s3o : S3) (lb jsonPath : String) (fs : FS) : UpResult × List S3Action :=
  match fs jsonPath with
  | none => (.fail, [])
  | some _ =>
    let act := S3Action.putB lb JSON_FILE_PATH_ON_AWS "public-read"
    match s3o.putResult lb with
    | .error _ => (.fail, [act])
    | .ok none => (.fail, [act])
    | .ok (some _) => (.ok, [act])

/-- `DataIngestion.upload_to_aws_s3`. -/
def upload_to_aws_s3 (s3o : S3) (bucket jsonPath : String) (fs : FS) :
    UpResult × List S3Action :=
  let lb := (pyLower bucket)
  if lb ∈ s3o.buckets.map pyLower then
    s3_put s3o lb jsonPath fs
  else
    let cact := S3Action.createB lb "ap-south-1"
    match s3o.createResult lb with
    | .error _ => (.fail, [cact])
    | .ok none => (.exitCr, [cact])
    | .ok (some _) =>
      let r := s3_put s3o lb jsonPath fs
      (r.1, cact :: r.2)

/-! ### Stage `get_cmd_argv` and the driver `main` -/

/-- `sys.argv[i].strip("'").strip()`. -/
def argClean (s : String) : String :=
  String.mk (pyStrip (stripEnds (fun c => c = Char.ofNat 39) s.data))

/-- `DataIngestion.get_cmd_argv`: exactly four argv entries, each of the
three arguments non-empty after stripping quotes and whitespace; otherwise
the script exits with `INVALID_ARG_ERR` (modelled as `none`). -/
def get_cmd_argv (argv : List String) : Option (String × String × String) :=
  match argv with
  | [_, a1, a2, a3] =>
    let b := argClean a1
    let u := argClean a2
    let sh := argClean a3
    if b ≠ "" ∧ u ≠ "" ∧ sh ≠ "" then some (b, u, sh) else none
  | _ => none

/-- The pipeline stages, in the order `main` attempts them. -/
inductive Stage where
  | argvS
  | fetchS
  | guardS
  | extS
  | persistS
  | parseS
  | uploadS
deriving DecidableEq

/-- The fixed stage order of the pipeline. -/
def stageOrder : List Stage :=
  [.argvS, .fetchS, .guardS, .extS, .persistS, .parseS, .uploadS]

/-- Everything one run of the script interacts with: the process
arguments, the result of `requests.get`, the `mimetypes`, `pandas` and
`json` library oracles, the S3 backend, and the local filesystem. -/
structure Env where
  argv : List String
  fetch : Option Response
  guessAll : String → List String
  excel : Bytes → Option Workbook
  ser : List Record → Bytes
  s3 : S3
  fs : FS

/-- `DataIngestion.main`: runs the stages in order, each gated on the
previous one's success; returns the process exit status, the list of
stages attempted, and the final filesystem. -/
def main (env : Env) : Nat × List Stage × FS :=
  match get_cmd_argv env.argv with
  | none => (INVALID_ARG_ERR, [.argvS], env.fs)
  | some (bucket, url, sheet) =>
    match env.fetch with
    | none => (GENERIC_ERR, [.argvS, .fetchS], env.fs)
    | some r =>
      if is_downloadable (some r) then
        let file_ext := derive_ext url
        let ext_list := get_extensions env.guessAll (some r)
        if ext_list ≠ [] ∧ file_ext ∈ ext_list then
          let outPath := OUTPUT_FILE_PATH ++ file_ext
          let dl := download r outPath env.fs
          if dl.1 then
            let pr := parse_file env.excel env.ser sheet outPath OUTPUT_FILE_JSON dl.2
            if pr.1 then
              let up := upload_to_aws_s3 env.s3 bucket OUTPUT_FILE_JSON pr.2
              match up.1 with
              | .ok => (SUCCESS, stageOrder, pr.2)
              | .fail => (GENERIC_ERR, stageOrder, pr.2)
              | .exitCr => (S3_BUCKET_CR_ERR, stageOrder, pr.2)
            else (GENERIC_ERR, [.argvS, .fetchS, .guardS, .extS, .persistS, .parseS], pr.2)
          else (GENERIC_ERR, [.argvS, .fetchS, .guardS, .extS, .persistS], dl.2)
        else (GENERIC_ERR, [.argvS, .fetchS, .guardS, .extS], env.fs)
      else (GENERIC_ERR, [.argvS, .fetchS, .guardS], env.fs)

/-! ### Derived per-stage views of an environment -/

/-- The validated arguments (junk defaults when validation fails; no stage
past validation runs in that case). -/
def theArgs (env : Env) : String × String × String :=
  (get_cmd_argv env.argv).getD ("", "", "")

def theBucket (env : Env) : String := (theArgs env).1

def theUrl (env : Env) : String := (theArgs env).2.1

def theSheet (env : Env) : String := (theArgs env).2.2

/-- The stored response (junk default when the fetch failed). -/
def theResp (env : Env) : Response := env.fetch.getD ⟨0, none, []⟩

/-- The concrete output path `main` builds from the derived extension. -/
def thePath (env : Env) : String := OUTPUT_FILE_PATH ++ derive_ext (theUrl env)

def fsAfterDownload (env : Env) : FS :=
  (download (theResp env) (thePath env) env.fs).2

def fsAfterParse (env : Env) : FS :=
  (parse_file env.excel env.ser (theSheet env) (thePath env) OUTPUT_FILE_JSON
    (fsAfterDownload env)).2

/-- Whether each stage, reached with the state the pipeline would hand it,
reports success. -/
def stageOk (env : Env) : Stage → Bool
  | .argvS => (get_cmd_argv env.argv).isSome
  | .fetchS => connect env.fetch
  | .guardS => is_downloadable env.fetch
  | .extS =>
    let el := get_extensions env.guessAll env.fetch
    decide (el ≠ [] ∧ derive_ext (theUrl env) ∈ el)
  | .persistS => (download (theResp env) (thePath env) env.fs).1
  | .parseS =>
    (parse_file env.excel env.ser (theSheet env) (thePath env) OUTPUT_FILE_JSON
      (fsAfterDownload env)).1
  | .uploadS =>
    (upload_to_aws_s3 env.s3 (theBucket env) OUTPUT_FILE_JSON (fsAfterParse env)).1
      == .ok

/-- Number of stages `main` attempts: one past the first failure, or all
seven. -/
def runLen (env : Env) : Nat :=
  min ((stageOrder.findIdx (fun s => ! stageOk env s)) + 1) 7

/-! ### List access helper lemmas -/

theorem getD_map {α β : Type} (f : α → β) (l : List α) (j : Nat)
    (h : j < l.length) (da : α) (db : β) :
    (l.map f).getD j db = f (l.getD j da) := by
  induction l generalizing j with
  | nil => simp at h
  | cons x xs ih =>
    cases j with
    | zero => rfl
    | succ n =>
      simp only [List.map_cons, List.getD_cons_succ]
      exact ih n (by simpa using h)

theorem zip_getD {α β : Type} (as : List α) (bs : List β) (j : Nat)
    (h1 : j < as.length) (h2 : j < bs.length) (da : α) (db : β) :
    (as.zip bs).getD j (da, db) = (as.getD j da, bs.getD j db) := by
  induction as generalizing bs j with
  | nil => simp at h1
  | cons a as ih =>
    cases bs with
    | nil => simp at h2
    | cons b bs =>
      cases j with
      | zero => rfl
      | succ n =>
        simp only [List.zip_cons_cons, List.getD_cons_succ]
        exact ih bs n (by simpa using h1) (by simpa using h2)

/-! ### Claim C4: worksheet rows to records -/

/-- Scenario A from the specification: header `[Code, Name]`, rows
`[["A1","Alpha"],["B2",None]]`. -/
def scenarioA : DataFrame :=
  ⟨["Code", "Name"],
   [[.val (.str "A1"), .val (.str "Alpha")], [.val (.str "B2"), .nan]]⟩

/-- C4: parsing a worksheet with `R` data rows yields exactly `R` records,
in row order; record `i` is the header row zipped with the null-normalized
cells of source row `i`; each entry is keyed by the corresponding column
header and holds null exactly when the source cell was `NaN`.  Scenario A
evaluates as the specification states. -/
theorem C4_records (df : DataFrame) :
    (to_records df).length = df.rows.length ∧
    (∀ i, i < df.rows.length →
      (to_records df).getD i [] =
        df.header.zip ((df.rows.getD i []).map PdCell.toOpt)) ∧
    (∀ i j, i < df.rows.length → j < df.header.length →
      j < (df.rows.getD i []).length →
      (((to_records df).getD i []).getD j ("", none)).1 = df.header.getD j "" ∧
      ((((to_records df).getD i []).getD j ("", none)).2 = none ↔
        (df.rows.getD i []).getD j .nan = .nan)) ∧
    to_records scenarioA =
      [[("Code", some (.str "A1")), ("Name", some (.str "Alpha"))],
       [("Code", some (.str "B2")), ("Name", none)]] := by
  have hrow : ∀ i, i < df.rows.length →
      (to_records df).getD i [] =
        df.header.zip ((df.rows.getD i []).map PdCell.toOpt) := by
    intro i hi
    exact getD_map _ df.rows i hi [] []
  refine ⟨by simp [to_records], hrow, ?hcell, rfl⟩
  intro i j hi hj1 hj2
  rw [hrow i hi,
    zip_getD df.header ((df.rows.getD i []).map PdCell.toOpt) j hj1
      (by simpa using hj2) "" none]
  refine ⟨rfl, ?hnull⟩
  rw [getD_map PdCell.toOpt (df.rows.getD i []) j hj2 .nan none]
  cases h : (df.rows.getD i []).getD j .nan <;> simp [PdCell.toOpt]

theorem C4_records_witness :
    (((to_records scenarioA).getD 1 []).getD 1 ("", none)).2 = none ↔
      (scenarioA.rows.getD 1 []).getD 1 PdCell.nan = PdCell.nan :=
  ((C4_records scenarioA).2.2.1 1 1 (by decide) (by decide) (by decide)).2

/-! ### Claims C6 and C10: the Persister -/

/-- A status-200 download overwrites the target path with the body bytes
and succeeds exactly on non-zero size. -/
theorem download_200 (r : Response) (path : String) (fs : FS)
    (h : r.status_code = 200) :
    download r path fs =
      (decide (0 < r.content.length),
       FS.write (if (fs path).isSome then FS.remove fs path else fs) path
         r.content) := by
  have hw : FS.write (if (fs path).isSome then FS.remove fs path else fs) path
      r.content path = some r.content := by
    simp [FS.write]
  simp only [download, if_pos h, hw]

/-- A pre-existing non-empty file at the persist target. -/
def fsPre : FS :=
  fun p => if p = "output/dataingestion.xls" then some [7] else none

/-- A fetched response with a non-200 status. -/
def respBad : Response := ⟨404, some "application/vnd.ms-excel", [1, 2]⟩

/-- C6 counterexample: for a 404 response and a path already holding a
non-empty file, the Persister reports failure and performs no delete and
no write, although the file at the path exists with size greater than
zero — so "success iff the resulting file exists with non-zero size" fails
as stated, and the pre-existing file is not deleted before writing. -/
theorem C6_counterexample :
    (download respBad "output/dataingestion.xls" fsPre).1 = false ∧
    (download respBad "output/dataingestion.xls" fsPre).2
      "output/dataingestion.xls" = some [7] ∧
    0 < ([7] : Bytes).length := by
  refine ⟨?c1, ?c2, by decide⟩
  · simp [download, respBad]
  · simp [download, respBad, fsPre]

/-- C6 amended: provided the fetched response has status 200, the
Persister deletes any file already at the path, writes the body bytes
there (leaving every other path untouched), reports success exactly when
the written content is non-empty, and running it a second time on its own
output changes nothing: one file of the same size remains. -/
theorem C6_amended_persister (r : Response) (path : String) (fs : FS)
    (h : r.status_code = 200) :
    (download r path fs).2 path = some r.content ∧
    (∀ q, q ≠ path → (download r path fs).2 q = fs q) ∧
    ((download r path fs).1 = true ↔ 0 < r.content.length) ∧
    download r path (download r path fs).2 = download r path fs := by
  have h2 : (download r path fs).2 =
      FS.write (if (fs path).isSome then FS.remove fs path else fs) path
        r.content := by
    rw [download_200 r path fs h]
  refine ⟨?c1, ?c2, ?c3, ?c4⟩
  · rw [h2]; simp [FS.write]
  · intro q hq
    rw [h2]
    by_cases hfp : (fs path).isSome <;>
      simp [FS.write, FS.remove, hq, hfp]
  · rw [download_200 r path fs h]; simp
  · rw [h2, download_200 r path fs h, download_200 r path _ h]
    have hsome : ((FS.write (if (fs path).isSome then FS.remove fs path else fs)
        path r.content) path).isSome := by simp [FS.write]
    rw [if_pos hsome]
    have hwet : FS.write (FS.remove (FS.write
        (if (fs path).isSome then FS.remove fs path else fs) path r.content)
        path) path r.content =
        FS.write (if (fs path).isSome then FS.remove fs path else fs) path
          r.content := by
      funext q
      by_cases hq : q = path <;> simp [FS.write, FS.remove, hq]
    rw [hwet]

/-- A concrete 200 response for the witnesses. -/
def respOk : Response := ⟨200, some "application/vnd.ms-excel", [1, 2, 3]⟩

theorem C6_amended_persister_witness :
    (download respOk "output/dataingestion.xls" fsPre).2
        "output/dataingestion.xls" = some respOk.content ∧
    ((download respOk "output/dataingestion.xls" fsPre).1 = true ↔
      0 < respOk.content.length) :=
  ⟨(C6_amended_persister respOk "output/dataingestion.xls" fsPre rfl).1,
   (C6_amended_persister respOk "output/dataingestion.xls" fsPre rfl).2.2.1⟩

/-- C10: for any response whose status code differs from 200 the Persister
touches nothing on disk (in particular a pre-existing file at the target
path survives) and reports failure, while the fetch stage accepts any
non-`None` response whatever its status code. -/
theorem C10_status_gate (r : Response) (path : String) (fs : FS)
    (h : r.status_code ≠ 200) :
    download r path fs = (false, fs) ∧ connect (some r) = true := by
  refine ⟨?c1, rfl⟩
  simp [download, h]

theorem C10_status_gate_witness :
    download respBad "output/dataingestion.xls" fsPre = (false, fsPre) ∧
      connect (some respBad) = true :=
  C10_status_gate respBad "output/dataingestion.xls" fsPre (by decide)

/-! ### Claim C7: the sheet gate of the Parser/Serializer -/

/-- C7: if the trimmed requested sheet name is not among the workbook's
worksheet names the parse stage fails with the filesystem untouched (in
particular the JSON output is never created); conversely the filesystem is
changed only in the branch where the sheet was found, the data frame is
non-empty and the record list is non-empty, and then the only change is
writing the serialized records to the JSON path. -/
theorem C7_sheet_gate (excel : Bytes → Option Workbook) (ser : List Record → Bytes)
    (sheet rawPath jsonPath : String) (fs : FS) :
    (∀ b wb, fs rawPath = some b → excel b = some wb →
      (pyStripS sheet) ∉ wb.map Prod.fst →
      parse_file excel ser sheet rawPath jsonPath fs = (false, fs)) ∧
    ((parse_file excel ser sheet rawPath jsonPath fs).2 ≠ fs →
      ∃ b wb df, fs rawPath = some b ∧ excel b = some wb ∧
        (pyStripS sheet) ∈ wb.map Prod.fst ∧ findSheet wb sheet = some df ∧
        df.empty = false ∧ (to_records df).isEmpty = false ∧
        (parse_file excel ser sheet rawPath jsonPath fs).2 =
          FS.write fs jsonPath (ser (to_records df))) := by
  constructor
  · intro b wb hb hwb hns
    simp only [parse_file, hb, hwb, if_neg hns]
  · intro hne
    cases hb : fs rawPath with
    | none =>
      have hres : parse_file excel ser sheet rawPath jsonPath fs = (false, fs) := by
        simp only [parse_file, hb]
      exact absurd (by rw [hres]) hne
    | some b =>
      cases hwb : excel b with
      | none =>
        have hres : parse_file excel ser sheet rawPath jsonPath fs = (false, fs) := by
          simp only [parse_file, hb, hwb]
        exact absurd (by rw [hres]) hne
      | some wb =>
        by_cases hmem : (pyStripS sheet) ∈ wb.map Prod.fst
        · cases hdf : findSheet wb sheet with
          | none =>
            have hres : parse_file excel ser sheet rawPath jsonPath fs = (false, fs) := by
              simp only [parse_file, hb, hwb, if_pos hmem, hdf]
            exact absurd (by rw [hres]) hne
          | some df =>
            by_cases hemp : df.empty = true
            · have hres : parse_file excel ser sheet rawPath jsonPath fs = (false, fs) := by
                simp only [parse_file, hb, hwb, if_pos hmem, hdf, if_pos hemp]
              exact absurd (by rw [hres]) hne
            · by_cases hrec : (to_records df).isEmpty = true
              · have hres : parse_file excel ser sheet rawPath jsonPath fs = (false, fs) := by
                  simp only [parse_file, hb, hwb, if_pos hmem, hdf, if_neg hemp,
                    if_pos hrec]
                exact absurd (by rw [hres]) hne
              · have hjw : FS.write fs jsonPath (ser (to_records df)) jsonPath =
                    some (ser (to_records df)) := by
                  simp [FS.write]
                have hres : parse_file excel ser sheet rawPath jsonPath fs =
                    (decide (0 < (ser (to_records df)).length),
                     FS.write fs jsonPath (ser (to_records df))) := by
                  simp only [parse_file, hb, hwb, if_pos hmem, hdf, if_neg hemp,
                    if_neg hrec, hjw]
                exact ⟨b, wb, df, rfl, hwb, hmem, hdf,
                  by simpa using hemp, by simpa using hrec, by rw [hres]⟩
        · have hres : parse_file excel ser sheet rawPath jsonPath fs = (false, fs) := by
            simp only [parse_file, hb, hwb, if_neg hmem]
          exact absurd (by rw [hres]) hne

/-- The workbook of Scenario D: only `"Sheet1"` exists. -/
def wbD : Workbook := [("Sheet1", scenarioA)]

/-- A filesystem holding only the persisted raw file. -/
def fsD : FS := fun p => if p = "output/dataingestion.xls" then some [9] else none

theorem C7_sheet_gate_witness :
    parse_file (fun _ => some wbD) (fun _ => [1]) "Sheet9"
      "output/dataingestion.xls" OUTPUT_FILE_JSON fsD = (false, fsD) :=
  (C7_sheet_gate (fun _ => some wbD) (fun _ => [1]) "Sheet9"
    "output/dataingestion.xls" OUTPUT_FILE_JSON fsD).1 [9] wbD (by decide) rfl
    (by decide)

/-! ### Claim C8: the Uploader -/

theorem s3_put_spec (s3o : S3) (lb jsonPath : String) (fs : FS) :
    ((s3_put s3o lb jsonPath fs).1 = .ok ↔
      (fs jsonPath).isSome = true ∧ s3o.putResult lb = .ok (some ())) ∧
    (∀ a ∈ (s3_put s3o lb jsonPath fs).2,
      a = S3Action.putB lb JSON_FILE_PATH_ON_AWS "public-read") := by
  cases hj : fs jsonPath with
  | none => simp [s3_put, hj]
  | some b =>
    cases hp : s3o.putResult lb with
    | error e => simp [s3_put, hj, hp]
    | ok v =>
      cases v with
      | none => simp [s3_put, hj, hp]
      | some u => cases u; simp [s3_put, hj, hp]

/-- C8: the Uploader compares the target container name against the
existing container names after lowercasing both sides; when the target is
present it goes straight to the put; when absent its first backend request
is creating the container with the fixed `ap-south-1` location, and a
creation call that returns `None` aborts via `sys.exit` (the
`exitCr` outcome, mapped to `S3_BUCKET_CR_ERR` by the driver); every put
request uses the fixed key and public-read ACL on the lowercased bucket;
the stage succeeds exactly when the JSON file exists, the backend
acknowledged the put with a truthy response, and the container was present
or successfully created — any exception outcome yields failure. -/
theorem C8_uploader (s3o : S3) (bucket jsonPath : String) (fs : FS) :
    ((pyLower bucket) ∈ s3o.buckets.map pyLower →
      upload_to_aws_s3 s3o bucket jsonPath fs =
        s3_put s3o (pyLower bucket) jsonPath fs) ∧
    ((pyLower bucket) ∉ s3o.buckets.map pyLower →
      (upload_to_aws_s3 s3o bucket jsonPath fs).2.head? =
        some (.createB (pyLower bucket) "ap-south-1")) ∧
    ((pyLower bucket) ∉ s3o.buckets.map pyLower →
      s3o.createResult (pyLower bucket) = .ok none →
      upload_to_aws_s3 s3o bucket jsonPath fs =
        (.exitCr, [.createB (pyLower bucket) "ap-south-1"])) ∧
    (∀ bkt key acl,
      S3Action.putB bkt key acl ∈ (upload_to_aws_s3 s3o bucket jsonPath fs).2 →
      bkt = (pyLower bucket) ∧ key = JSON_FILE_PATH_ON_AWS ∧ acl = "public-read") ∧
    ((upload_to_aws_s3 s3o bucket jsonPath fs).1 = .ok ↔
      (fs jsonPath).isSome = true ∧
      s3o.putResult (pyLower bucket) = .ok (some ()) ∧
      ((pyLower bucket) ∈ s3o.buckets.map pyLower ∨
        s3o.createResult (pyLower bucket) = .ok (some ()))) := by
  have hiff := (s3_put_spec s3o (pyLower bucket) jsonPath fs).1
  have hput := (s3_put_spec s3o (pyLower bucket) jsonPath fs).2
  by_cases hmem : (pyLower bucket) ∈ s3o.buckets.map pyLower
  · have heq : upload_to_aws_s3 s3o bucket jsonPath fs =
        s3_put s3o (pyLower bucket) jsonPath fs := by
      simp only [upload_to_aws_s3, if_pos hmem]
    refine ⟨fun _ => heq, fun hno => absurd hmem hno, fun hno => absurd hmem hno,
      ?p1, ?p2⟩
    · intro bkt key acl hin
      rw [heq] at hin
      have := hput _ hin
      injection this with e1 e2 e3
      exact ⟨e1, e2, e3⟩
    · rw [heq, hiff]
      constructor
      · rintro ⟨a, b⟩; exact ⟨a, b, Or.inl hmem⟩
      · rintro ⟨a, b, -⟩; exact ⟨a, b⟩
  · cases hcr : s3o.createResult (pyLower bucket) with
    | error e =>
      have heq : upload_to_aws_s3 s3o bucket jsonPath fs =
          (.fail, [.createB (pyLower bucket) "ap-south-1"]) := by
        simp only [upload_to_aws_s3, if_neg hmem, hcr]
      refine ⟨fun hyes => absurd hyes hmem, fun _ => by rw [heq]; rfl,
        fun _ hok => Except.noConfusion hok, ?q1, ?q2⟩
      · intro bkt key acl hin
        rw [heq] at hin
        simp at hin
      · rw [heq]
        constructor
        · intro hk; exact UpResult.noConfusion hk
        · rintro ⟨-, -, hm | hc⟩
          · exact absurd hm hmem
          · exact Except.noConfusion hc
    | ok v =>
      cases v with
      | none =>
        have heq : upload_to_aws_s3 s3o bucket jsonPath fs =
            (.exitCr, [.createB (pyLower bucket) "ap-south-1"]) := by
          simp only [upload_to_aws_s3, if_neg hmem, hcr]
        refine ⟨fun hyes => absurd hyes hmem, fun _ => by rw [heq]; rfl,
          fun _ _ => heq, ?r1, ?r2⟩
        · intro bkt key acl hin
          rw [heq] at hin
          simp at hin
        · rw [heq]
          constructor
          · intro hk; exact UpResult.noConfusion hk
          · rintro ⟨-, -, hm | hc⟩
            · exact absurd hm hmem
            · injection hc with h2
              exact Option.noConfusion h2
      | some u =>
        cases u
        have heq : upload_to_aws_s3 s3o bucket jsonPath fs =
            ((s3_put s3o (pyLower bucket) jsonPath fs).1,
             .createB (pyLower bucket) "ap-south-1" ::
               (s3_put s3o (pyLower bucket) jsonPath fs).2) := by
          simp only [upload_to_aws_s3, if_neg hmem, hcr]
        refine ⟨fun hyes => absurd hyes hmem, fun _ => by rw [heq]; rfl,
          fun _ hok => by injection hok with h2; exact Option.noConfusion h2,
          ?s1, ?s2⟩
        · intro bkt key acl hin
          rw [heq] at hin
          simp only [List.mem_cons] at hin
          rcases hin with hin | hin
          · cases hin
          · have := hput _ hin
            injection this with e1 e2 e3
            exact ⟨e1, e2, e3⟩
        · rw [heq]
          constructor
          · intro hk
            rcases hiff.mp hk with ⟨a, b⟩
            exact ⟨a, b, Or.inr rfl⟩
          · rintro ⟨a, b, -⟩
            exact hiff.mpr ⟨a, b⟩

/-- A backend with no buckets whose creation call returns `None`. -/
def s3None : S3 := ⟨[], fun _ => .ok none, fun _ => .ok (some ())⟩

theorem C8_uploader_witness :
    upload_to_aws_s3 s3None "MyBucket" OUTPUT_FILE_JSON fsD =
      (.exitCr, [.createB (pyLower "MyBucket") "ap-south-1"]) :=
  (C8_uploader s3None "MyBucket" OUTPUT_FILE_JSON fsD).2.2.1 (by decide) rfl

/-! ### Claim C5: the extension gate in the driver -/

/-- C5: with the earlier stages successful, the extension-resolution gate
passes exactly when the content-type-implied extension list is non-empty
and contains the URL-derived extension; when it does not pass, `main`
stops right there with a failure status and the filesystem untouched (no
file is persisted), and when it passes the persist stage is attempted. -/
theorem C5_extension_gate (env : Env) (bucket url sheet : String) (r : Response)
    (h1 : get_cmd_argv env.argv = some (bucket, url, sheet))
    (h2 : env.fetch = some r)
    (h3 : is_downloadable (some r) = true) :
    (¬(get_extensions env.guessAll (some r) ≠ [] ∧
        derive_ext url ∈ get_extensions env.guessAll (some r)) →
      main env = (GENERIC_ERR, [.argvS, .fetchS, .guardS, .extS], env.fs)) ∧
    ((get_extensions env.guessAll (some r) ≠ [] ∧
        derive_ext url ∈ get_extensions env.guessAll (some r)) →
      Stage.persistS ∈ (main env).2.1) := by
  constructor
  · intro hgate
    simp only [main, h1, h2, if_pos h3, if_neg hgate]
  · intro hgate
    simp only [main, h1, h2, if_pos h3, if_pos hgate]
    by_cases hdl : (download r (OUTPUT_FILE_PATH ++ derive_ext url) env.fs).1 = true
    · rw [if_pos hdl]
      by_cases hpr : (parse_file env.excel env.ser sheet
          (OUTPUT_FILE_PATH ++ derive_ext url) OUTPUT_FILE_JSON
          (download r (OUTPUT_FILE_PATH ++ derive_ext url) env.fs).2).1 = true
      · rw [if_pos hpr]
        cases (upload_to_aws_s3 env.s3 bucket OUTPUT_FILE_JSON
            (parse_file env.excel env.ser sheet
              (OUTPUT_FILE_PATH ++ derive_ext url) OUTPUT_FILE_JSON
              (download r (OUTPUT_FILE_PATH ++ derive_ext url) env.fs).2).2).1 <;>
          simp [stageOrder]
      · rw [if_neg hpr]
        simp
    · rw [if_neg hdl]
      simp

/-- A witness environment: valid arguments, a downloadable 200 response,
but a URL extension `.csv` outside the implied list (Scenario C). -/
def envC : Env :=
  ⟨["prog", "mybucket", "http://host/f.csv", "Sheet1"],
   some ⟨200, some "application/vnd.ms-excel", [1]⟩,
   fun _ => [".xls", ".xlsx"],
   fun _ => none,
   fun _ => [],
   ⟨[], fun _ => Except.error (), fun _ => Except.error ()⟩,
   fun _ => none⟩

theorem C5_extension_gate_witness :
    main envC = (GENERIC_ERR, [.argvS, .fetchS, .guardS, .extS], envC.fs) :=
  (C5_extension_gate envC "mybucket" "http://host/f.csv" "Sheet1"
    ⟨200, some "application/vnd.ms-excel", [1]⟩ rfl rfl (by decide)).1 (by decide)

/-! ### Claim C1: the staged pipeline -/

/-- A successful persist leaves a file at the target path. -/
theorem download_writes (r : Response) (path : String) (fs : FS)
    (h : (download r path fs).1 = true) :
    ((download r path fs).2 path).isSome = true := by
  by_cases hs : r.status_code = 200
  · rw [download_200 r path fs hs]
    simp [FS.write]
  · simp [download, hs] at h

/-- The parse stage either leaves the filesystem unchanged or writes the
serialized records of some data frame to the JSON path. -/
theorem parse_file_snd (excel : Bytes → Option Workbook) (ser : List Record → Bytes)
    (sheet rawPath jsonPath : String) (fs : FS) :
    (parse_file excel ser sheet rawPath jsonPath fs).2 = fs ∨
    ∃ df, (parse_file excel ser sheet rawPath jsonPath fs).2 =
      FS.write fs jsonPath (ser (to_records df)) := by
  cases hb : fs rawPath with
  | none =>
    left
    simp only [parse_file, hb]
  | some b =>
    cases hwb : excel b with
    | none =>
      left
      simp only [parse_file, hb, hwb]
    | some wb =>
      by_cases hmem : (pyStripS sheet) ∈ wb.map Prod.fst
      · cases hdf : findSheet wb sheet with
        | none =>
          left
          simp only [parse_file, hb, hwb, if_pos hmem, hdf]
        | some df =>
          by_cases hemp : df.empty = true
          · left
            simp only [parse_file, hb, hwb, if_pos hmem, hdf, if_pos hemp]
          · by_cases hrec : (to_records df).isEmpty = true
            · left
              simp only [parse_file, hb, hwb, if_pos hmem, hdf, if_neg hemp,
                if_pos hrec]
            · right
              refine ⟨df, ?heq⟩
              have hjw : FS.write fs jsonPath (ser (to_records df)) jsonPath =
                  some (ser (to_records df)) := by
                simp [FS.write]
              simp only [parse_file, hb, hwb, if_pos hmem, hdf, if_neg hemp,
                if_neg hrec, hjw]
      · left
        simp only [parse_file, hb, hwb, if_neg hmem]

/-- The parse stage never deletes a file. -/
theorem parse_file_keeps (excel : Bytes → Option Workbook) (ser : List Record → Bytes)
    (sheet rawPath jsonPath : String) (fs : FS) (q : String)
    (h : (fs q).isSome = true) :
    ((parse_file excel ser sheet rawPath jsonPath fs).2 q).isSome = true := by
  rcases parse_file_snd excel ser sheet rawPath jsonPath fs with he | ⟨df, he⟩
  · rw [he]; exact h
  · rw [he]
    by_cases hq : q = jsonPath <;> simp [FS.write, hq, h]

/-- C1: `main` attempts the stages in the fixed order argument-validation,
fetch, downloadability check, extension resolution, persist,
parse/serialize, upload: the attempted stages are always an initial
segment of that order; the run exits with the success status exactly when
all seven stages succeed; every stage before the last attempted one
succeeded; when the run stops before the upload stage the last attempted
stage is the one that failed and the exit status is a failure status; and
once the persist stage has succeeded its artifact is still on disk at the
end of the run, whatever a later stage does (no rollback). -/
theorem C1_staged_pipeline (env : Env) :
    (main env).2.1 = stageOrder.take (runLen env) ∧
    ((main env).1 = SUCCESS ↔ ∀ s ∈ stageOrder, stageOk env s = true) ∧
    (∀ j, j + 1 < runLen env → stageOk env (stageOrder.getD j .argvS) = true) ∧
    (runLen env < 7 →
      (main env).1 ≠ SUCCESS ∧
      stageOk env (stageOrder.getD (runLen env - 1) .argvS) = false) ∧
    (6 ≤ runLen env → ((main env).2.2 (thePath env)).isSome = true) := by
  cases h1 : get_cmd_argv env.argv with
  | none =>
    have ha : stageOk env .argvS = false := by simp [stageOk, h1]
    have hmain : main env = (INVALID_ARG_ERR, [.argvS], env.fs) := by
      simp only [main, h1]
    have hfi : stageOrder.findIdx (fun s => ! stageOk env s) = 0 := by
      simp [stageOrder, List.findIdx_cons, ha]
    have hrl : runLen env = 1 := by simp [runLen, hfi]
    rw [hmain, hrl]
    refine ⟨rfl, ?a2, ?a3, ?a4, ?a5⟩
    · simp [SUCCESS, INVALID_ARG_ERR, stageOrder, ha]
    · intro j hj
      exact absurd hj (by omega)
    · intro _
      exact ⟨by simp [SUCCESS, INVALID_ARG_ERR], by simpa [stageOrder] using ha⟩
    · intro h6
      exact absurd h6 (by omega)
  | some trip =>
    obtain ⟨b, u, sh⟩ := trip
    have ha : stageOk env .argvS = true := by simp [stageOk, h1]
    have hu : theUrl env = u := by simp [theUrl, theArgs, h1]
    have hbk : theBucket env = b := by simp [theBucket, theArgs, h1]
    have hsh : theSheet env = sh := by simp [theSheet, theArgs, h1]
    have hpth : thePath env = OUTPUT_FILE_PATH ++ derive_ext u := by
      rw [thePath, hu]
    cases h2 : env.fetch with
    | none =>
      have hbF : stageOk env .fetchS = false := by simp [stageOk, connect, h2]
      have hmain : main env = (GENERIC_ERR, [.argvS, .fetchS], env.fs) := by
        simp only [main, h1, h2]
      have hfi : stageOrder.findIdx (fun s => ! stageOk env s) = 1 := by
        simp [stageOrder, List.findIdx_cons, ha, hbF]
      have hrl : runLen env = 2 := by simp [runLen, hfi]
      rw [hmain, hrl]
      refine ⟨rfl, ?b2, ?b3, ?b4, ?b5⟩
      · simp [SUCCESS, GENERIC_ERR, stageOrder, hbF]
      · intro j hj
        exact match j, hj with
          | 0, _ => by simpa [stageOrder] using ha
          | n+1, hj => absurd hj (by omega)
      · intro _
        exact ⟨by simp [SUCCESS, GENERIC_ERR], by simpa [stageOrder] using hbF⟩
      · intro h6
        exact absurd h6 (by omega)
    | some r =>
      have hbT : stageOk env .fetchS = true := by simp [stageOk, connect, h2]
      have hr : theResp env = r := by simp [theResp, h2]
      cases h3 : is_downloadable (some r) with
      | false =>
        have hgF : stageOk env .guardS = false := by simp [stageOk, h2, h3]
        have hmain : main env =
            (GENERIC_ERR, [.argvS, .fetchS, .guardS], env.fs) := by
          simp only [main, h1, h2]
          rw [if_neg (by simp [h3])]
        have hfi : stageOrder.findIdx (fun s => ! stageOk env s) = 2 := by
          simp [stageOrder, List.findIdx_cons, ha, hbT, hgF]
        have hrl : runLen env = 3 := by simp [runLen, hfi]
        rw [hmain, hrl]
        refine ⟨rfl, ?c2, ?c3, ?c4, ?c5⟩
        · simp [SUCCESS, GENERIC_ERR, stageOrder, hgF]
        · intro j hj
          exact match j, hj with
            | 0, _ => by simpa [stageOrder] using ha
            | 1, _ => by simpa [stageOrder] using hbT
            | n+2, hj => absurd hj (by omega)
        · intro _
          exact ⟨by simp [SUCCESS, GENERIC_ERR], by simpa [stageOrder] using hgF⟩
        · intro h6
          exact absurd h6 (by omega)
      | true =>
        have hgT : stageOk env .guardS = true := by simp [stageOk, h2, h3]
        by_cases hgate : (get_extensions env.guessAll (some r) ≠ [] ∧
            derive_ext u ∈ get_extensions env.guessAll (some r))
        · have heT : stageOk env .extS = true := by
            simp only [stageOk, h2, hu]
            exact decide_eq_true hgate
          cases hdl : (download r (OUTPUT_FILE_PATH ++ derive_ext u) env.fs).1 with
          | false =>
            have hpF : stageOk env .persistS = false := by
              simp only [stageOk, hr, hpth, hdl]
            have hmain : main env =
                (GENERIC_ERR, [.argvS, .fetchS, .guardS, .extS, .persistS],
                 (download r (OUTPUT_FILE_PATH ++ derive_ext u) env.fs).2) := by
              simp only [main, h1, h2]
              rw [if_pos h3, if_pos hgate, if_neg (by simp [hdl])]
            have hfi : stageOrder.findIdx (fun s => ! stageOk env s) = 4 := by
              simp [stageOrder, List.findIdx_cons, ha, hbT, hgT, heT, hpF]
            have hrl : runLen env = 5 := by simp [runLen, hfi]
            rw [hmain, hrl]
            refine ⟨rfl, ?e2, ?e3, ?e4, ?e5⟩
            · simp [SUCCESS, GENERIC_ERR, stageOrder, hpF]
            · intro j hj
              exact match j, hj with
                | 0, _ => by simpa [stageOrder] using ha
                | 1, _ => by simpa [stageOrder] using hbT
                | 2, _ => by simpa [stageOrder] using hgT
                | 3, _ => by simpa [stageOrder] using heT
                | n+4, hj => absurd hj (by omega)
            · intro _
              exact ⟨by simp [SUCCESS, GENERIC_ERR],
                by simpa [stageOrder] using hpF⟩
            · intro h6
              exact absurd h6 (by omega)
          | true =>
            have hpT : stageOk env .persistS = true := by
              simp only [stageOk, hr, hpth, hdl]
            have hfsd : fsAfterDownload env =
                (download r (OUTPUT_FILE_PATH ++ derive_ext u) env.fs).2 := by
              simp only [fsAfterDownload, hr, hpth]
            cases hpr : (parse_file env.excel env.ser sh
                (OUTPUT_FILE_PATH ++ derive_ext u) OUTPUT_FILE_JSON
                (download r (OUTPUT_FILE_PATH ++ derive_ext u) env.fs).2).1 with
            | false =>
              have hqF : stageOk env .parseS = false := by
                simp only [stageOk, hsh, hpth, hfsd, hpr]
              have hmain : main env =
                  (GENERIC_ERR,
                   [.argvS, .fetchS, .guardS, .extS, .persistS, .parseS],
                   (parse_file env.excel env.ser sh
                     (OUTPUT_FILE_PATH ++ derive_ext u) OUTPUT_FILE_JSON
                     (download r (OUTPUT_FILE_PATH ++ derive_ext u) env.fs).2).2) := by
                simp only [main, h1, h2]
                rw [if_pos h3, if_pos hgate, if_pos hdl, if_neg (by simp [hpr])]
              have hfi : stageOrder.findIdx (fun s => ! stageOk env s) = 5 := by
                simp [stageOrder, List.findIdx_cons, ha, hbT, hgT, heT, hpT, hqF]
              have hrl : runLen env = 6 := by simp [runLen, hfi]
              rw [hmain, hrl]
              refine ⟨rfl, ?f2, ?f3, ?f4, ?f5⟩
              · simp [SUCCESS, GENERIC_ERR, stageOrder, hqF]
              · intro j hj
                exact match j, hj with
                  | 0, _ => by simpa [stageOrder] using ha
                  | 1, _ => by simpa [stageOrder] using hbT
                  | 2, _ => by simpa [stageOrder] using hgT
                  | 3, _ => by simpa [stageOrder] using heT
                  | 4, _ => by simpa [stageOrder] using hpT
                  | n+5, hj => absurd hj (by omega)
              · intro _
                exact ⟨by simp [SUCCESS, GENERIC_ERR],
                  by simpa [stageOrder] using hqF⟩
              · intro _
                rw [hpth]
                exact parse_file_keeps env.excel env.ser sh _ OUTPUT_FILE_JSON _ _
                  (download_writes r _ env.fs hdl)
            | true =>
              have hqT : stageOk env .parseS = true := by
                simp only [stageOk, hsh, hpth, hfsd, hpr]
              have hfsp : fsAfterParse env =
                  (parse_file env.excel env.ser sh
                    (OUTPUT_FILE_PATH ++ derive_ext u) OUTPUT_FILE_JSON
                    (download r (OUTPUT_FILE_PATH ++ derive_ext u) env.fs).2).2 := by
                simp only [fsAfterParse, hsh, hpth, hfsd]
              cases hup : (upload_to_aws_s3 env.s3 b OUTPUT_FILE_JSON
                  (parse_file env.excel env.ser sh
                    (OUTPUT_FILE_PATH ++ derive_ext u) OUTPUT_FILE_JSON
                    (download r (OUTPUT_FILE_PATH ++ derive_ext u) env.fs).2).2).1 with
              | ok =>
                have huT : stageOk env .uploadS = true := by
                  simp [stageOk, hbk, hfsp, hup]
                have hmain : main env =
                    (SUCCESS, stageOrder,
                     (parse_file env.excel env.ser sh
                       (OUTPUT_FILE_PATH ++ derive_ext u) OUTPUT_FILE_JSON
                       (download r (OUTPUT_FILE_PATH ++ derive_ext u) env.fs).2).2) := by
                  simp only [main, h1, h2]
                  rw [if_pos h3, if_pos hgate, if_pos hdl, if_pos hpr, hup]
                have hfi : stageOrder.findIdx (fun s => ! stageOk env s) = 7 := by
                  simp [stageOrder, List.findIdx_cons, List.findIdx_nil,
                    ha, hbT, hgT, heT, hpT, hqT, huT]
                have hrl : runLen env = 7 := by simp [runLen, hfi]
                rw [hmain, hrl]
                refine ⟨rfl, ?g2, ?g3, ?g4, ?g5⟩
                · simp [stageOrder, ha, hbT, hgT, heT, hpT, hqT, huT]
                · intro j hj
                  exact match j, hj with
                    | 0, _ => by simpa [stageOrder] using ha
                    | 1, _ => by simpa [stageOrder] using hbT
                    | 2, _ => by simpa [stageOrder] using hgT
                    | 3, _ => by simpa [stageOrder] using heT
                    | 4, _ => by simpa [stageOrder] using hpT
                    | 5, _ => by simpa [stageOrder] using hqT
                    | n+6, hj => absurd hj (by omega)
                · intro h7
                  exact absurd h7 (by omega)
                · intro _
                  rw [hpth]
                  exact parse_file_keeps env.excel env.ser sh _ OUTPUT_FILE_JSON _ _
                    (download_writes r _ env.fs hdl)
              | fail =>
                have huF : stageOk env .uploadS = false := by
                  simp [stageOk, hbk, hfsp, hup]
                have hmain : main env =
                    (GENERIC_ERR, stageOrder,
                     (parse_file env.excel env.ser sh
                       (OUTPUT_FILE_PATH ++ derive_ext u) OUTPUT_FILE_JSON
                       (download r (OUTPUT_FILE_PATH ++ derive_ext u) env.fs).2).2) := by
                  simp only [main, h1, h2]
                  rw [if_pos h3, if_pos hgate, if_pos hdl, if_pos hpr, hup]
                have hfi : stageOrder.findIdx (fun s => ! stageOk env s) = 6 := by
                  simp [stageOrder, List.findIdx_cons, ha, hbT, hgT, heT, hpT,
                    hqT, huF]
                have hrl : runLen env = 7 := by simp [runLen, hfi]
                rw [hmain, hrl]
                refine ⟨rfl, ?h2c, ?h3c, ?h4c, ?h5c⟩
                · simp [SUCCESS, GENERIC_ERR, stageOrder, huF]
                · intro j hj
                  exact match j, hj with
                    | 0, _ => by simpa [stageOrder] using ha
                    | 1, _ => by simpa [stageOrder] using hbT
                    | 2, _ => by simpa [stageOrder] using hgT
                    | 3, _ => by simpa [stageOrder] using heT
                    | 4, _ => by simpa [stageOrder] using hpT
                    | 5, _ => by simpa [stageOrder] using hqT
                    | n+6, hj => absurd hj (by omega)
                · intro h7
                  exact absurd h7 (by omega)
                · intro _
                  rw [hpth]
                  exact parse_file_keeps env.excel env.ser sh _ OUTPUT_FILE_JSON _ _
                    (download_writes r _ env.fs hdl)
              | exitCr =>
                have huF : stageOk env .uploadS = false := by
                  simp [stageOk, hbk, hfsp, hup]
                have hmain : main env =
                    (S3_BUCKET_CR_ERR, stageOrder,
                     (parse_file env.excel env.ser sh
                       (OUTPUT_FILE_PATH ++ derive_ext u) OUTPUT_FILE_JSON
                       (download r (OUTPUT_FILE_PATH ++ derive_ext u) env.fs).2).2) := by
                  simp only [main, h1, h2]
                  rw [if_pos h3, if_pos hgate, if_pos hdl, if_pos hpr, hup]
                have hfi : stageOrder.findIdx (fun s => ! stageOk env s) = 6 := by
                  simp [stageOrder, List.findIdx_cons, ha, hbT, hgT, heT, hpT,
                    hqT, huF]
                have hrl : runLen env = 7 := by simp [runLen, hfi]
                rw [hmain, hrl]
                refine ⟨rfl, ?i2, ?i3, ?i4, ?i5⟩
                · simp [SUCCESS, S3_BUCKET_CR_ERR, stageOrder, huF]
                · intro j hj
                  exact match j, hj with
                    | 0, _ => by simpa [stageOrder] using ha
                    | 1, _ => by simpa [stageOrder] using hbT
                    | 2, _ => by simpa [stageOrder] using hgT
                    | 3, _ => by simpa [stageOrder] using heT
                    | 4, _ => by simpa [stageOrder] using hpT
                    | 5, _ => by simpa [stageOrder] using hqT
                    | n+6, hj => absurd hj (by omega)
                · intro h7
                  exact absurd h7 (by omega)
                · intro _
                  rw [hpth]
                  exact parse_file_keeps env.excel env.ser sh _ OUTPUT_FILE_JSON _ _
                    (download_writes r _ env.fs hdl)
        · have heF : stageOk env .extS = false := by
            simp only [stageOk, h2, hu]
            exact decide_eq_false hgate
          have hmain : main env =
              (GENERIC_ERR, [.argvS, .fetchS, .guardS, .extS], env.fs) := by
            simp only [main, h1, h2]
            rw [if_pos h3, if_neg hgate]
          have hfi : stageOrder.findIdx (fun s => ! stageOk env s) = 3 := by
            simp [stageOrder, List.findIdx_cons, ha, hbT, hgT, heF]
          have hrl : runLen env = 4 := by simp [runLen, hfi]
          rw [hmain, hrl]
          refine ⟨rfl, ?d2, ?d3, ?d4, ?d5⟩
          · simp [SUCCESS, GENERIC_ERR, stageOrder, heF]
          · intro j hj
            exact match j, hj with
              | 0, _ => by simpa [stageOrder] using ha
              | 1, _ => by simpa [stageOrder] using hbT
              | 2, _ => by simpa [stageOrder] using hgT
              | n+3, hj => absurd hj (by omega)
          · intro _
            exact ⟨by simp [SUCCESS, GENERIC_ERR], by simpa [stageOrder] using heF⟩
          · intro h6
            exact absurd h6 (by omega)

theorem C1_staged_pipeline_witness :
    (main envC).1 ≠ SUCCESS ∧
    stageOk envC (stageOrder.getD (runLen envC - 1) .argvS) = false :=
  (C1_staged_pipeline envC).2.2.2.1 (by decide)

end DataIngestion
